import Mathlib

/-
  Verification development for the booksracpy analysis utilities
  (booksracpy/analyze_books.py).

  Shallow embedding choices:
  * Python runtime values are modelled by the inductive type Value.
    Python floats are modelled by rationals; all prices occurring in the
    data are finite decimal literals, for which the model is exact up to
    rounding of the binary representation.
  * Python dictionaries (records) are modelled as association lists with
    first-match lookup; dict.get returning the None object is modelled by
    recGet returning Value.vnone.
  * Python exceptions inside the aggregation functions are modelled with
    Except String; the payload names the exception type.
  * The builtin float(str) conversion is modelled for sign / digits /
    decimal point / exponent literals; the special forms inf, nan and
    digit underscores accepted by Python are outside the modelled domain
    and never arise in the inputs considered here.
  * str.strip and str.lower are modelled over the ASCII range.
-/

deriving instance DecidableEq for Except

namespace Booksracpy

/-- Python runtime values as they occur in loaded book records. -/
inductive Value : Type where
  | vnone : Value
  | vbool : Bool → Value
  | vint : Int → Value
  | vfloat : ℚ → Value
  | vstr : String → Value
  | vlist : List Value → Value
  | vdict : List (String × Value) → Value

/-- A scraped book record: a string-keyed mapping of values. -/
abbrev Record := List (String × Value)

/-- dict.get: first value bound to the key, or the None object. -/
def recGet (it : Record) (k : String) : Value :=
  match List.find? (fun kv => kv.fst == k) it with
  | some kv => kv.snd
  | Option.none => Value.vnone

/-- Python truthiness of a value. -/
def truthy : Value → Bool
  | Value.vnone => false
  | Value.vbool b => b
  | Value.vint n => n != 0
  | Value.vfloat q => q != 0
  | Value.vstr s => !s.isEmpty
  | Value.vlist l => !l.isEmpty
  | Value.vdict d => !d.isEmpty

/-- The Python `or` operator: first operand if truthy, else second. -/
def pyOr (a b : Value) : Value := if truthy a then a else b

/-- Test for the None object (the `is None` check). -/
def isNoneV : Value → Bool
  | Value.vnone => true
  | _ => false

/-- Indexing v[0]; Option.none models the raised exception
    (IndexError on an empty list, TypeError on non-sequences). -/
def pyIndex0 : Value → Option Value
  | Value.vlist (x :: _) => some x
  | Value.vstr s =>
      match s.data with
      | c :: _ => some (Value.vstr (String.mk [c]))
      | [] => Option.none
  | _ => Option.none

/-- ASCII whitespace recognised by str.strip in the modelled domain. -/
def pyIsSpace (c : Char) : Bool :=
  c == ' ' || c == '\t' || c == '\n' || c == '\r' ||
  c == Char.ofNat 11 || c == Char.ofNat 12

/-- Trim whitespace from both ends of a character list. -/
def stripList (cs : List Char) : List Char :=
  ((cs.dropWhile pyIsSpace).reverse.dropWhile pyIsSpace).reverse

/-- str.strip(). -/
def pyStrip (s : String) : String := String.mk (stripList s.data)

/-- str.lower() over the ASCII range. -/
def pyLower (s : String) : String := String.mk (s.data.map Char.toLower)

/-- s.replace(CURRENCY, EMPTY).replace(COMMA, EMPTY): drop every pound
    sign and every comma. -/
def removeMoney (s : String) : String :=
  String.mk (s.data.filter (fun c => !(c == '£' || c == ',')))

/-- Does the string start with the given character? -/
def headIs (cs : List Char) (c : Char) : Bool :=
  match cs with
  | [] => false
  | x :: _ => x == c

/-- Does the string end with the given character? -/
def lastIs (cs : List Char) (c : Char) : Bool := headIs cs.reverse c

/-- Numeric value of a decimal digit character. -/
def digitVal (c : Char) : Nat := c.toNat - '0'.toNat

/-- Read a maximal run of decimal digits. -/
def readDigits : List Char → (List Nat × List Char)
  | [] => ([], [])
  | c :: rest =>
      if c.isDigit then
        let p := readDigits rest
        (digitVal c :: p.fst, p.snd)
      else ([], c :: rest)

/-- Combine decimal digits into a natural number. -/
def natOfDigits (ds : List Nat) : Nat := ds.foldl (fun a d => a * 10 + d) 0

/-- Exponent suffix of a float literal: e or E, optional sign, digits. -/
def parseExpPart (cs : List Char) : Option (Int × List Char) :=
  match cs with
  | c :: r =>
      if c == 'e' || c == 'E' then
        let signed : Bool × List Char :=
          match r with
          | '+' :: r2 => (false, r2)
          | '-' :: r2 => (true, r2)
          | _ => (false, r)
        let p := readDigits signed.snd
        if p.fst.isEmpty then Option.none
        else
          let m : Int := (natOfDigits p.fst : Int)
          some ((if signed.fst then -m else m), p.snd)
      else Option.none
  | [] => Option.none

/-- The exact rational value of a decimal literal with the given sign,
    mantissa digits (integer and fraction concatenated), number of
    fraction digits and decimal exponent, built with integer arithmetic
    and mkRat so that it evaluates inside the kernel. -/
def ratOfParts (neg : Bool) (mantissa : Nat) (fracDigits : Nat) (e : Int) : ℚ :=
  let num : Nat := mantissa * 10 ^ e.toNat
  let den : Nat := 10 ^ fracDigits * 10 ^ (-e).toNat
  mkRat (if neg then -(num : Int) else (num : Int)) den

/-- The builtin float(str) on finite decimal literals: optional sign,
    digits with optional decimal point (at least one digit), optional
    exponent. Option.none models the raised ValueError. -/
def pyFloat (s : String) : Option ℚ :=
  let cs := stripList s.data
  let signed : Bool × List Char :=
    match cs with
    | '+' :: r => (false, r)
    | '-' :: r => (true, r)
    | _ => (false, cs)
  let ip := readDigits signed.snd
  let fp : List Nat × List Char :=
    match ip.snd with
    | '.' :: r => readDigits r
    | _ => ([], ip.snd)
  let afterFrac : List Char :=
    match ip.snd with
    | '.' :: _ => fp.snd
    | _ => ip.snd
  if ip.fst.isEmpty && fp.fst.isEmpty then Option.none
  else
    let m : Nat := natOfDigits ip.fst * 10 ^ fp.fst.length + natOfDigits fp.fst
    match parseExpPart afterFrac with
    | some er =>
        if er.snd.isEmpty then some (ratOfParts signed.fst m fp.fst.length er.fst)
        else Option.none
    | Option.none =>
        match afterFrac with
        | [] => some (ratOfParts signed.fst m fp.fst.length 0)
        | _ :: _ => Option.none

/-- JSON whitespace. -/
def jsonWs (cs : List Char) : List Char :=
  cs.dropWhile (fun c => c == ' ' || c == '\t' || c == '\n' || c == '\r')

/-- Value of a hexadecimal digit character. -/
def hexVal (c : Char) : Option Nat :=
  if c.isDigit then some (digitVal c)
  else if 'a' ≤ c && c ≤ 'f' then some (c.toNat - 'a'.toNat + 10)
  else if 'A' ≤ c && c ≤ 'F' then some (c.toNat - 'A'.toNat + 10)
  else Option.none

/-- Integer part of a JSON number: 0, or a nonzero digit followed by
    digits (a leading 0 consumes no further digits, as in the json
    module regex). -/
def parseIntPart (cs : List Char) : Option (Nat × List Char) :=
  match cs with
  | '0' :: r => some (0, r)
  | c :: r =>
      if c.isDigit then
        let p := readDigits r
        some (natOfDigits (digitVal c :: p.fst), p.snd)
      else Option.none
  | [] => Option.none

/-- Optional fraction part of a JSON number (dot followed by at least
    one digit): its digit value, its digit count and the rest. -/
def parseFracOpt (cs : List Char) : Option (Nat × Nat × List Char) :=
  match cs with
  | '.' :: r =>
      let p := readDigits r
      if p.fst.isEmpty then Option.none
      else some (natOfDigits p.fst, p.fst.length, p.snd)
  | _ => Option.none

/-- A JSON number; yields vint when it has neither fraction nor
    exponent, vfloat otherwise, as json.loads does. -/
def parseJNumber (cs : List Char) : Option (Value × List Char) :=
  let signed : Bool × List Char :=
    match cs with
    | '-' :: r => (true, r)
    | _ => (false, cs)
  match parseIntPart signed.snd with
  | Option.none => Option.none
  | some ipr =>
      let fracRes : (Nat × Nat) × Bool × List Char :=
        match parseFracOpt ipr.snd with
        | some f => ((f.fst, f.snd.fst), true, f.snd.snd)
        | Option.none => ((0, 0), false, ipr.snd)
      let expRes : Int × Bool × List Char :=
        match parseExpPart fracRes.snd.snd with
        | some e => (e.fst, true, e.snd)
        | Option.none => (0, false, fracRes.snd.snd)
      if fracRes.snd.fst || expRes.snd.fst then
        let m : Nat := ipr.fst * 10 ^ fracRes.fst.snd + fracRes.fst.fst
        some (Value.vfloat (ratOfParts signed.fst m fracRes.fst.snd expRes.fst),
              expRes.snd.snd)
      else
        some (Value.vint (if signed.fst then -(ipr.fst : Int) else (ipr.fst : Int)), ipr.snd)

/-- Body of a JSON string after the opening double quote; returns the
    decoded characters and the input after the closing quote. Escape
    sequences are decoded; a lone escaped surrogate decodes to the
    null character (Python would keep the surrogate; such strings
    never arise in the data considered here). -/
def parseJStringBody : Nat → List Char → Option (List Char × List Char)
  | 0, _ => Option.none
  | _, [] => Option.none
  | fuel + 1, c :: rest =>
      if c == '"' then some ([], rest)
      else if c == '\\' then
        match rest with
        | [] => Option.none
        | e :: rest2 =>
            let dec : Option (Char × List Char) :=
              if e == '"' then some ('"', rest2)
              else if e == '\\' then some ('\\', rest2)
              else if e == '/' then some ('/', rest2)
              else if e == 'b' then some (Char.ofNat 8, rest2)
              else if e == 'f' then some (Char.ofNat 12, rest2)
              else if e == 'n' then some ('\n', rest2)
              else if e == 'r' then some ('\r', rest2)
              else if e == 't' then some ('\t', rest2)
              else if e == 'u' then
                match rest2 with
                | h1 :: h2 :: h3 :: h4 :: rest3 =>
                    match hexVal h1, hexVal h2, hexVal h3, hexVal h4 with
                    | some a, some b, some c2, some d =>
                        some (Char.ofNat (((a * 16 + b) * 16 + c2) * 16 + d), rest3)
                    | _, _, _, _ => Option.none
                | _ => Option.none
              else Option.none
            match dec with
            | some dr =>
                match parseJStringBody fuel dr.snd with
                | some br => some (dr.fst :: br.fst, br.snd)
                | Option.none => Option.none
            | Option.none => Option.none
      else if c.toNat < 32 then Option.none
      else
        match parseJStringBody fuel rest with
        | some br => some (c :: br.fst, br.snd)
        | Option.none => Option.none

mutual

/-- One JSON value. JSON objects are not modelled: inside
    normalize_price the parsed text has had every comma removed, so an
    object could only occur as (or inside) the single element of a
    one-element array, and in every such case the final result of
    normalize_price is no-value whether the parse succeeds or fails. -/
def parseJValue : Nat → List Char → Option (Value × List Char)
  | 0, _ => Option.none
  | fuel + 1, cs =>
      match jsonWs cs with
      | [] => Option.none
      | c :: rest =>
          if c == '[' then
            match parseJArray fuel rest with
            | some ar => some (Value.vlist ar.fst, ar.snd)
            | Option.none => Option.none
          else if c == '"' then
            match parseJStringBody (rest.length + 1) rest with
            | some sr => some (Value.vstr (String.mk sr.fst), sr.snd)
            | Option.none => Option.none
          else if c == 't' then
            match rest with
            | 'r' :: 'u' :: 'e' :: r => some (Value.vbool true, r)
            | _ => Option.none
          else if c == 'f' then
            match rest with
            | 'a' :: 'l' :: 's' :: 'e' :: r => some (Value.vbool false, r)
            | _ => Option.none
          else if c == 'n' then
            match rest with
            | 'u' :: 'l' :: 'l' :: r => some (Value.vnone, r)
            | _ => Option.none
          else parseJNumber (c :: rest)

/-- Items of a JSON array after the opening bracket. -/
def parseJArray : Nat → List Char → Option (List Value × List Char)
  | 0, _ => Option.none
  | fuel + 1, cs =>
      match jsonWs cs with
      | ']' :: r => some ([], r)
      | cs2 =>
          match parseJValue fuel cs2 with
          | Option.none => Option.none
          | some vr =>
              match parseJArrayRest fuel vr.snd with
              | some ar => some (vr.fst :: ar.fst, ar.snd)
              | Option.none => Option.none

/-- Remaining items of a JSON array after one parsed item. -/
def parseJArrayRest : Nat → List Char → Option (List Value × List Char)
  | 0, _ => Option.none
  | fuel + 1, cs =>
      match jsonWs cs with
      | ']' :: r => some ([], r)
      | ',' :: r =>
          match parseJValue fuel r with
          | Option.none => Option.none
          | some vr =>
              match parseJArrayRest fuel vr.snd with
              | some ar => some (vr.fst :: ar.fst, ar.snd)
              | Option.none => Option.none
      | _ => Option.none

end

/-- json.loads: parse one JSON document with nothing but whitespace
    after it; Option.none models the raised decode error. -/
def jsonLoads (s : String) : Option Value :=
  match parseJValue (2 * s.data.length + 8) s.data with
  | some vr => if (jsonWs vr.snd).isEmpty then some vr.fst else Option.none
  | Option.none => Option.none

/-- normalize_price, fuel-indexed. The source recursion descends into
    a string literal found inside the cleaned input string, which is
    strictly shorter than the input, so string length bounds the
    recursion depth and the fuel supplied by normalize_price below is
    never exhausted. -/
def normPriceF : Nat → Value → Option ℚ
  | 0, _ => Option.none
  | fuel + 1, v =>
      match v with
      | Value.vnone => Option.none
      | Value.vbool b => some (if b then 1 else 0)
      | Value.vint n => some (n : ℚ)
      | Value.vfloat q => some q
      | Value.vstr raw =>
          let s0 := pyStrip raw
          let s1 :=
            if headIs s0.data '(' && lastIs s0.data ')' then
              pyStrip (String.mk ((s0.data.drop 1).dropLast))
            else s0
          let s := pyStrip (removeMoney s1)
          if headIs s.data '[' && lastIs s.data ']' then
            let viaList : Option (Option ℚ) :=
              match jsonLoads s with
              | some parsed =>
                  if truthy parsed then
                    match pyIndex0 parsed with
                    | some x => some (normPriceF fuel x)
                    | Option.none => Option.none
                  else Option.none
              | Option.none => Option.none
            match viaList with
            | some r => r
            | Option.none => pyFloat s
          else pyFloat s
      | Value.vlist _ => Option.none
      | Value.vdict _ => Option.none

/-- Fuel that always suffices for normPriceF on the given value. -/
def priceFuel : Value → Nat
  | Value.vstr s => s.data.length + 2
  | _ => 1

/-- normalize_price: extract a price from a value of any shape, or
    no-value (Option.none, the None result) when it cannot be parsed.
    Python booleans are numbers, hence the vbool case. -/
def normalize_price (v : Value) : Option ℚ := normPriceF (priceFuel v) v

/-- The or-chain it.get(CATEGORY) or it.get(CapCategory) shared by
    average_price_in_category. -/
def catChainAvg (it : Record) : Value :=
  pyOr (recGet it "category") (recGet it "Category")

/-- The or-chain of count_books_in_category: the previous chain
    followed by it.get(category_name). -/
def catChainCount (it : Record) : Value :=
  pyOr (catChainAvg it) (recGet it "category_name")

/-- The statement c = c[0] applied when c is a list or tuple; raises
    IndexError on an empty one. -/
def resolveCat (c : Value) : Except String Value :=
  match c with
  | Value.vlist [] => Except.error "IndexError"
  | Value.vlist (x :: _) => Except.ok x
  | other => Except.ok other

/-- isinstance(c, str) and c.strip().lower() == cat, for an already
    stripped-and-lowered target cat. -/
def catMatches (c : Value) (cat : String) : Bool :=
  match c with
  | Value.vstr s => pyLower (pyStrip s) == cat
  | _ => false

/-- Per-record decision of count_books_in_category: ok false skips or
    rejects the record, ok true counts it, error propagates the
    exception. -/
def catItemStep (it : Record) (cat : String) : Except String Bool :=
  let c := catChainCount it
  if isNoneV c then Except.ok false
  else
    match resolveCat c with
    | Except.error e => Except.error e
    | Except.ok c2 => Except.ok (catMatches c2 cat)

/-- Loop of count_books_in_category over the records. -/
def countCatGo : List Record → String → Except String Nat
  | [], _ => Except.ok 0
  | it :: rest, cat =>
      match catItemStep it cat with
      | Except.error e => Except.error e
      | Except.ok b =>
          match countCatGo rest cat with
          | Except.error e => Except.error e
          | Except.ok n => Except.ok (if b then n + 1 else n)

/-- count_books_in_category. -/
def count_books_in_category (items : List Record) (category : String) :
    Except String Nat :=
  countCatGo items (pyLower (pyStrip category))

/-- Per-record category decision of average_price_in_category, which
    consults only the two-alias chain. -/
def avgCatMatchStep (it : Record) (cat : String) : Except String Bool :=
  let c := catChainAvg it
  if isNoneV c then Except.ok false
  else
    match resolveCat c with
    | Except.error e => Except.error e
    | Except.ok c2 => Except.ok (catMatches c2 cat)

/-- Per-record contribution to the price list of
    average_price_in_category. -/
def avgCatItemStep (it : Record) (cat : String) (field : String) :
    Except String (Option ℚ) :=
  match avgCatMatchStep it cat with
  | Except.error e => Except.error e
  | Except.ok true => Except.ok (normalize_price (recGet it field))
  | Except.ok false => Except.ok Option.none

/-- The price list collected by average_price_in_category, in record
    order. -/
def collectCatPrices : List Record → String → String → Except String (List ℚ)
  | [], _, _ => Except.ok []
  | it :: rest, cat, field =>
      match avgCatItemStep it cat field with
      | Except.error e => Except.error e
      | Except.ok po =>
          match collectCatPrices rest cat field with
          | Except.error e => Except.error e
          | Except.ok ps =>
              Except.ok (match po with
                         | some p => p :: ps
                         | Option.none => ps)

/-- average_price_in_category. -/
def average_price_in_category (items : List Record) (category : String)
    (price_field : String) : Except String (Option ℚ) :=
  match collectCatPrices items (pyLower (pyStrip category)) price_field with
  | Except.error e => Except.error e
  | Except.ok prices =>
      Except.ok (if prices = [] then Option.none
                 else some (List.sum prices / (prices.length : ℚ)))

/-- The price list collected by average_price_all, in record order. -/
def collectPricesAll : List Record → String → List ℚ
  | [], _ => []
  | it :: rest, field =>
      match normalize_price (recGet it field) with
      | some p => p :: collectPricesAll rest field
      | Option.none => collectPricesAll rest field

/-- average_price_all; no statement in its body can raise. -/
def average_price_all (items : List Record) (price_field : String) :
    Option ℚ :=
  if collectPricesAll items price_field = [] then Option.none
  else some (List.sum (collectPricesAll items price_field) /
             ((collectPricesAll items price_field).length : ℚ))

/-- Loop of count_books_in_price_range with already ordered bounds. -/
def countRangeGo : List Record → ℚ → ℚ → String → Nat
  | [], _, _, _ => 0
  | it :: rest, lo, hi, field =>
      let n := countRangeGo rest lo hi field
      match normalize_price (recGet it field) with
      | Option.none => n
      | some p => if lo ≤ p ∧ p ≤ hi then n + 1 else n

/-- count_books_in_price_range: swap the bounds when given in the
    wrong order, then count records whose price lies between them;
    no statement in its body can raise. -/
def count_books_in_price_range (items : List Record) (min_price : ℚ)
    (max_price : ℚ) (price_field : String) : Nat :=
  countRangeGo items
    (if min_price > max_price then max_price else min_price)
    (if min_price > max_price then min_price else max_price)
    price_field

/-- Specification-side restatement of the range count: the number of
    records whose normalized price lies in the closed interval between
    the smaller and the larger bound. -/
def countMatchingClosed (items : List Record) (a : ℚ) (b : ℚ)
    (f : String) : Nat :=
  items.countP (fun it =>
    match normalize_price (recGet it f) with
    | some p => decide (min a b ≤ p ∧ p ≤ max a b)
    | Option.none => false)

/-- The single-quote character. -/
def sq : Char := Char.ofNat 39

/-- The scraper artifact: a bracketed, single-quoted pound amount. -/
def artifactStr : String :=
  String.mk (['['] ++ [sq, '£', '5', '1', '.', '7', '7', sq] ++ [']'])

/-- The same artifact with JSON double quotes instead. -/
def artifactStrDq : String :=
  String.mk (['['] ++ ['"', '£', '5', '1', '.', '7', '7', '"'] ++ [']'])

/-- Sample records: three Travel books with two good prices and one
    bad one. -/
def bookA : Record := [("category", Value.vstr "Travel"), ("price", Value.vstr "£10.00")]

def bookB : Record := [("category", Value.vstr "Travel"), ("price", Value.vstr "£30.00")]

def bookC : Record := [("category", Value.vstr "Travel"), ("price", Value.vstr "bad")]

def booksTravel : List Record := [bookA, bookB, bookC]

/-- A record whose category is only under the category_name alias. -/
def recOnlyName : Record :=
  [("category_name", Value.vstr "Travel"), ("price", Value.vstr "£10.00")]

/-- A record whose sole category-like field, the last alias consulted
    by count_books_in_category, holds an empty list. -/
def recEmptyListName : Record := [("category_name", Value.vlist [])]

/-- A record whose sole category-like field, the last alias consulted
    by average_price_in_category, holds an empty list. -/
def recEmptyListCat : Record := [("Category", Value.vlist [])]

/-- A record with a falsy first alias and a truthy second one. -/
def recFalsyFirst : Record :=
  [("category", Value.vstr ""), ("Category", Value.vstr "History")]

/-- A record whose last alias holds the empty string. -/
def recEmptyStrName : Record := [("category_name", Value.vstr "")]

/-- A record with only the plain category alias, for witnesses. -/
def recPlainCat : Record := [("category", Value.vstr "Travel")]

theorem isNoneV_eq (v : Value) (h : isNoneV v = true) : v = Value.vnone := by
  cases v <;> simp_all [isNoneV]

/-- Claim C1. The code parses the pound-prefixed, parenthesized and
    comma-separated price strings to the expected values and maps the
    unparseable string and the None object to no value, but it maps the
    single-quoted array-like artifact to no value as well, because
    json.loads accepts only double-quoted strings and the final float
    conversion fails on the bracketed remainder; only the double-quoted
    variant of the artifact parses. This contradicts the claim and the
    comment in the source naming that artifact. -/
theorem claim1_price_eval :
    normalize_price (Value.vstr "£51.77") = some (mkRat 5177 100) ∧
    normalize_price (Value.vstr "(£51.77)") = some (mkRat 5177 100) ∧
    normalize_price (Value.vstr "1,234.56") = some (mkRat 123456 100) ∧
    normalize_price (Value.vstr "abc") = Option.none ∧
    normalize_price Value.vnone = Option.none ∧
    normalize_price (Value.vstr artifactStr) = Option.none ∧
    normalize_price (Value.vstr artifactStrDq) = some (mkRat 5177 100) := by
  refine ⟨by decide, by decide, by decide, by decide, by decide, by decide, by decide⟩

/-- Claim C3. normalize_price is a total function: on every value it
    yields either a number or the no-value result; unparseable inputs
    take the no-value branch rather than an exception, every fallible
    step of the source being wrapped in a handler. -/
theorem claim3_normalize_total (v : Value) :
    normalize_price v = Option.none ∨ ∃ q : ℚ, normalize_price v = some q := by
  cases h : normalize_price v with
  | none => exact Or.inl rfl
  | some q => exact Or.inr ⟨q, rfl⟩

/-- Claim C5. On an already numeric input, normalize_price returns
    exactly the numeric cast of that input: the cast of an integer and
    a rational-valued float unchanged. -/
theorem claim5_numeric_cast (n : Int) (q : ℚ) :
    normalize_price (Value.vint n) = some ((n : ℚ)) ∧
    normalize_price (Value.vfloat q) = some q :=
  ⟨rfl, rfl⟩

/-- Claim C9. normalize_price is idempotent on its successes: whenever
    it returns a number, feeding that number back in returns it
    unchanged, because the numeric branch casts directly. -/
theorem claim9_idempotent (v : Value) (q : ℚ) :
    normalize_price v = some q → normalize_price (Value.vfloat q) = some q :=
  fun _ => rfl

/-- Witness for claim C9 at the pound-prefixed price string. -/
theorem claim9_idempotent_witness :
    normalize_price (Value.vstr "£51.77") = some (mkRat 5177 100) ∧
    normalize_price (Value.vfloat (mkRat 5177 100)) = some (mkRat 5177 100) :=
  ⟨by decide, claim9_idempotent (Value.vstr "£51.77") (mkRat 5177 100) (by decide)⟩

/-- Claim C2, counterexample. A record whose category sits only under
    the category_name alias is selected by count_books_in_category but
    not by average_price_in_category, whose or-chain stops at the
    Category alias: the per-record decisions differ and so do the
    aggregate results. -/
theorem claim2_counterexample :
    catItemStep recOnlyName "travel" = Except.ok true ∧
    avgCatMatchStep recOnlyName "travel" = Except.ok false ∧
    count_books_in_category [recOnlyName] "travel" = Except.ok 1 ∧
    average_price_in_category [recOnlyName] "travel" "price" = Except.ok Option.none := by
  refine ⟨by decide, by decide, by decide, by decide⟩

/-- Claim C2 as amended. On records whose category_name lookup is the
    None object and whose two-alias or-chain over category and Category
    is truthy or the None object, the per-record category decision of
    average_price_in_category coincides with that of
    count_books_in_category, the two or-chains then yielding the same
    value. -/
theorem claim2_amended_match (it : Record) (cat : String)
    (h1 : isNoneV (recGet it "category_name") = true)
    (h2 : truthy (catChainAvg it) = true ∨ isNoneV (catChainAvg it) = true) :
    avgCatMatchStep it cat = catItemStep it cat := by
  have hcn : recGet it "category_name" = Value.vnone := isNoneV_eq _ h1
  have hchain : catChainCount it = pyOr (catChainAvg it) Value.vnone := by
    rw [catChainCount, hcn]
  rcases h2 with h | h
  · have he : catChainCount it = catChainAvg it := by
      rw [hchain, pyOr, if_pos h]
    simp only [avgCatMatchStep, catItemStep, he]
  · have hv : catChainAvg it = Value.vnone := isNoneV_eq _ h
    have he : catChainCount it = Value.vnone := by
      rw [hchain, hv]; rfl
    simp only [avgCatMatchStep, catItemStep, he, hv]

/-- Witness for the amended claim C2 at a record with a plain truthy
    category field. -/
theorem claim2_amended_match_witness :
    isNoneV (recGet recPlainCat "category_name") = true ∧
    truthy (catChainAvg recPlainCat) = true ∧
    avgCatMatchStep recPlainCat "travel" = catItemStep recPlainCat "travel" :=
  ⟨by decide, by decide,
   claim2_amended_match recPlainCat "travel" (by decide) (Or.inl (by decide))⟩

/-- Claim C4. Contrary to the claim, two of the four operations can
    raise: when every category alias of a record is falsy and the last
    alias consulted holds an empty list, the or-chain yields that empty
    list, the None check passes it through, and indexing its first
    element raises IndexError, in count_books_in_category and in
    average_price_in_category alike. -/
theorem claim4_crash_eval :
    count_books_in_category [recEmptyListName] "travel" = Except.error "IndexError" ∧
    average_price_in_category [recEmptyListCat] "travel" "price" =
      Except.error "IndexError" := by
  refine ⟨by decide, by decide⟩

/-- Claim C10. A falsy category value in a non-final alias position is
    indeed passed over in favour of the next alias; but when the FINAL
    alias holds the falsy value the or-chain returns it instead of the
    None object, so an empty list there is indexed and raises
    IndexError, and an empty string there is compared and matches an
    empty target instead of the record being skipped. -/
theorem claim10_falsy_eval :
    catItemStep recFalsyFirst "history" = Except.ok true ∧
    catItemStep recEmptyListName "travel" = Except.error "IndexError" ∧
    avgCatMatchStep recEmptyListCat "travel" = Except.error "IndexError" ∧
    catItemStep recEmptyStrName "" = Except.ok true := by
  refine ⟨by decide, by decide, by decide, by decide⟩

theorem swap_min (a b : ℚ) : (if a > b then b else a) = min a b := by
  rcases le_or_lt a b with h | h
  · rw [if_neg (not_lt.mpr h), min_eq_left h]
  · rw [if_pos h, min_eq_right h.le]

theorem swap_max (a b : ℚ) : (if a > b then a else b) = max a b := by
  rcases le_or_lt a b with h | h
  · rw [if_neg (not_lt.mpr h), max_eq_right h]
  · rw [if_pos h, max_eq_left h.le]

theorem countRangeGo_eq (items : List Record) (lo hi : ℚ) (f : String) :
    countRangeGo items lo hi f = items.countP (fun it =>
      match normalize_price (recGet it f) with
      | some p => decide (lo ≤ p ∧ p ≤ hi)
      | Option.none => false) := by
  induction items with
  | nil => rfl
  | cons it rest ih =>
      rw [List.countP_cons]
      simp only [countRangeGo]
      rw [ih]
      cases h : normalize_price (recGet it f) with
      | none => simp [h]
      | some p =>
          by_cases hp : lo ≤ p ∧ p ≤ hi
          · simp [h, hp]
          · simp [h, hp]

/-- Claim C6. count_books_in_price_range is symmetric in its two
    bounds, and it counts exactly the records whose normalized price
    lies in the closed interval from the smaller to the larger bound,
    the bounds being swapped before filtering when given in
    decreasing order. -/
theorem claim6_range_symm (items : List Record) (a b : ℚ) (f : String) :
    count_books_in_price_range items a b f = count_books_in_price_range items b a f ∧
    count_books_in_price_range items a b f = countMatchingClosed items a b f := by
  have ha : count_books_in_price_range items a b f =
      countRangeGo items (min a b) (max a b) f := by
    simp only [count_books_in_price_range]
    rw [swap_min, swap_max]
  have hb : count_books_in_price_range items b a f =
      countRangeGo items (min b a) (max b a) f := by
    simp only [count_books_in_price_range]
    rw [swap_min, swap_max]
  constructor
  · rw [ha, hb, min_comm, max_comm]
  · rw [ha, countRangeGo_eq]
    rfl

/-- Claim C7. average_price_all yields no result exactly when the list
    of successfully normalized prices is empty, and otherwise the
    arithmetic mean of that list; average_price_in_category likewise
    on its collected per-category price list whenever its scan
    completes without an exception. -/
theorem claim7_average_empty (items : List Record) (field cat : String) :
    (average_price_all items field = Option.none ↔
       collectPricesAll items field = []) ∧
    (collectPricesAll items field ≠ [] →
       average_price_all items field =
         some (List.sum (collectPricesAll items field) /
               ((collectPricesAll items field).length : ℚ))) ∧
    (∀ l : List ℚ,
       collectCatPrices items (pyLower (pyStrip cat)) field = Except.ok l →
       ((average_price_in_category items cat field = Except.ok Option.none ↔ l = []) ∧
        (l ≠ [] → average_price_in_category items cat field =
           Except.ok (some (List.sum l / (l.length : ℚ)))))) := by
  refine ⟨?_, ?_, ?_⟩
  · by_cases h : collectPricesAll items field = [] <;> simp [average_price_all, h]
  · intro h
    simp [average_price_all, h]
  · intro l hl
    constructor
    · by_cases h : l = [] <;> simp [average_price_in_category, hl, h]
    · intro h
      simp [average_price_in_category, hl, h]

/-- Witness for claim C7: three Travel books with prices 10, 30 and an
    unparseable one average to 20, overall and inside the category. -/
theorem claim7_average_empty_witness :
    collectPricesAll booksTravel "price" ≠ [] ∧
    average_price_all booksTravel "price" = some 20 ∧
    average_price_in_category booksTravel "Travel" "price" = Except.ok (some 20) := by
  have h := claim7_average_empty booksTravel "price" "Travel"
  refine ⟨by decide, ?_, ?_⟩
  · have h2 := h.2.1 (by decide)
    rw [h2, show collectPricesAll booksTravel "price" = [10, 30] from by decide]
    norm_num
  · have h3 := (h.2.2 [10, 30] (by decide)).2 (by decide)
    rw [h3]
    norm_num [Except.ok.injEq]

/-- Claim C8. count_books_in_category depends on its target only
    through the stripped, lowercased form: two targets equal after
    trimming and lowercasing count identically. -/
theorem claim8_target_insensitive (items : List Record) (t1 t2 : String)
    (h : pyLower (pyStrip t1) = pyLower (pyStrip t2)) :
    count_books_in_category items t1 = count_books_in_category items t2 := by
  unfold count_books_in_category
  rw [h]

/-- Witness for claim C8 at two spellings of the Travel target. -/
theorem claim8_target_insensitive_witness :
    pyLower (pyStrip " TRAVEL ") = pyLower (pyStrip "Travel") ∧
    count_books_in_category booksTravel " TRAVEL " =
      count_books_in_category booksTravel "Travel" :=
  ⟨by decide, claim8_target_insensitive booksTravel " TRAVEL " "Travel" (by decide)⟩

end Booksracpy
